import Mathlib

/-!
Verification of the chunk-transcribe-merge-chapter pipeline.

This file shallowly embeds the core functions of the pipeline:
`split_audio` (time-based chunking of an audio file), `merge_transcripts`
(overlap-aware reassembly of per-chunk transcripts), `prepare_segments_for_gpt`
(budget-aware even sampling of a segment stream) and `build_chapters_prompt`
(chapter-count arithmetic and prompt construction).

Modelling conventions:
* Python floats are modelled as rationals (`ℚ`); the claims only exercise
  values at which IEEE double arithmetic is exact.
* Python `int(x)` (truncation toward zero) is modelled by `pyInt`.
* A Python exception (the `ZeroDivisionError` reachable in the sampler) is
  modelled by an `Option` result, `none` standing for the raised exception.
* Console printing, file I/O and the external service invocations (ffmpeg,
  Whisper, the chat API, Supabase) are plumbing and are not modelled; the
  chunk list construction models the case in which every ffmpeg invocation
  succeeds, which is the only case the claims speak about.
-/

/-- Python `int(q)`: truncation toward zero. -/
def pyInt (q : ℚ) : ℤ :=
  if 0 ≤ q then ⌊q⌋ else ⌈q⌉

/-- Round to the nearest integer, ties to even — the rounding used by
Python `format(x, '.1f')` (modulo binary-float representation, which the
claims never exercise). -/
def roundHalfEven (x : ℚ) : ℤ :=
  if x - ⌊x⌋ < 1/2 then ⌊x⌋
  else if 1/2 < x - ⌊x⌋ then ⌊x⌋ + 1
  else if ⌊x⌋ % 2 = 0 then ⌊x⌋ else ⌊x⌋ + 1

/-- One-decimal rendering of a nonnegative rational, as Python `f"{q:.1f}"`. -/
def fmt1nn (q : ℚ) : String :=
  toString ((roundHalfEven (q * 10)).toNat / 10) ++ "." ++
    toString ((roundHalfEven (q * 10)).toNat % 10)

/-- Python `f"{q:.1f}"`. -/
def fmt1 (q : ℚ) : String :=
  if q < 0 then "-" ++ fmt1nn (-q) else fmt1nn q

/-- A transcript segment as produced by transcription: chunk-local (later
episode-global) start/end times and the spoken text.  Mirrors the dicts
`{"start": .., "end": .., "text": ..}` of `transcribe_podcast.py`. -/
structure Seg where
  start : ℚ
  «end» : ℚ
  text : String
deriving DecidableEq

/-- The chunk descriptor built by `split_audio` (`chunk_info` in
`src/scripts/split_podcast.py`); the output file path is plumbing and
is not modelled. -/
structure ChunkInfo where
  index : ℕ
  start_offset_seconds : ℚ
  duration_seconds : ℚ
  actual_start_time : ℚ
deriving DecidableEq

/-- `num_chunks = math.ceil(total_duration / chunk_duration_seconds)` from
`split_audio`. -/
def num_chunks (total_duration chunk_duration_seconds : ℚ) : ℕ :=
  (⌈total_duration / chunk_duration_seconds⌉).toNat

/-- The start time computed for chunk `i` in `split_audio`: `0` for the
first chunk, `i * chunk_duration_seconds - overlap_seconds` afterwards. -/
def chunk_start (chunk_duration_seconds overlap_seconds : ℚ) (i : ℕ) : ℚ :=
  if i = 0 then 0 else i * chunk_duration_seconds - overlap_seconds

/-- `split_audio(input_file, chunk_duration_seconds, overlap_seconds)` from
`src/scripts/split_podcast.py`, restricted to its chunk-window arithmetic:
for each `i < num_chunks` compute the start time and duration, skip the
chunk if its duration is `< 1`, and otherwise record the chunk descriptor
(the ffmpeg invocation is modelled as succeeding). -/
def split_audio (total_duration chunk_duration_seconds overlap_seconds : ℚ) :
    List ChunkInfo :=
  (List.range (num_chunks total_duration chunk_duration_seconds)).filterMap
    fun i =>
      let start_time := chunk_start chunk_duration_seconds overlap_seconds i
      let duration :=
        if i < num_chunks total_duration chunk_duration_seconds - 1 then
          chunk_duration_seconds + overlap_seconds
        else total_duration - start_time
      if duration < 1 then none
      else some
        { index := i
          start_offset_seconds := if 0 < i then i * chunk_duration_seconds else 0
          duration_seconds := duration
          actual_start_time := start_time }

/-- The chunk descriptor `split_audio` records for index `i` (used to state
that, when no chunk is dropped, `split_audio` is exactly this descriptor at
every index below `num_chunks`). -/
def chunk_at (total_duration chunk_duration_seconds overlap_seconds : ℚ)
    (i : ℕ) : ChunkInfo :=
  { index := i
    start_offset_seconds := if 0 < i then i * chunk_duration_seconds else 0
    duration_seconds :=
      if i < num_chunks total_duration chunk_duration_seconds - 1 then
        chunk_duration_seconds + overlap_seconds
      else total_duration - chunk_start chunk_duration_seconds overlap_seconds i
    actual_start_time := chunk_start chunk_duration_seconds overlap_seconds i }

/-- One entry of the `chunks_data` list fed to `merge_transcripts`: the
chunk's reconstruction offset together with the segments of its
transcript (the other dict keys are plumbing). -/
structure ChunkData where
  start_offset_seconds : ℚ
  segments : List Seg

/-- The merged transcript `{"text": .., "segments": ..}` returned by
`merge_transcripts`. -/
structure MergedTranscript where
  text : String
  segments : List Seg

/-- The comparison key used by `merged_segments.sort(key=lambda x: x['start'])`. -/
def seg_le (a b : Seg) : Prop := a.start ≤ b.start

instance : DecidableRel seg_le := fun a b => inferInstanceAs (Decidable (a.start ≤ b.start))

instance : IsTotal Seg seg_le := ⟨fun a b => le_total a.start b.start⟩

instance : IsTrans Seg seg_le := ⟨fun _ _ _ h h' => le_trans h h'⟩

/-- The segment stream accumulated by the loop of `merge_transcripts`
before sorting: for chunk `i` every segment is shifted by the chunk's
offset, and for `i > 0` a segment whose un-shifted start lies before
`overlap_seconds` is skipped. -/
def kept_segments (chunks_data : List ChunkData) (overlap_seconds : ℚ) : List Seg :=
  chunks_data.enum.flatMap fun p =>
    p.2.segments.filterMap fun seg =>
      if 0 < p.1 ∧ seg.start < overlap_seconds then none
      else some
        { start := seg.start + p.2.start_offset_seconds
          «end» := seg.«end» + p.2.start_offset_seconds
          text := seg.text }

/-- `merge_transcripts(chunks_data, overlap_seconds)` from
`src/scripts/transcribe_podcast.py`: accumulate the shifted, overlap-filtered
segments, sort them by start time (Python `list.sort` is a stable sort, here
realised by insertion sort on the non-strict key comparison, which has the
same permutation/sortedness/stability characterisation), and join the texts
with single spaces. -/
def merge_transcripts (chunks_data : List ChunkData) (overlap_seconds : ℚ) :
    MergedTranscript :=
  let merged_segments :=
    (kept_segments chunks_data overlap_seconds).insertionSort seg_le
  { text := String.intercalate " " (merged_segments.map Seg.text)
    segments := merged_segments }

/-- The line rendering `f"[{seg['start']:.1f}-{seg['end']:.1f}] {seg['text']}\n"`
used by both samplers. -/
def renderLine (seg : Seg) : String :=
  "[" ++ fmt1 seg.start ++ "-" ++ fmt1 seg.«end» ++ "] " ++ seg.text ++ "\n"

/-- `total_length` in `prepare_segments_for_gpt`: the summed length of every
rendered line. -/
def total_length (segments : List Seg) : ℕ :=
  ((segments.map renderLine).map String.length).sum

/-- `avg_line_length = total_length / len(segments)`. -/
def avg_line_length (segments : List Seg) : ℚ :=
  (total_length segments : ℚ) / (segments.length : ℚ)

/-- `segments_to_include = int(max_chars / avg_line_length)`. -/
def segments_to_include (segments : List Seg) (max_chars : ℕ) : ℕ :=
  (pyInt ((max_chars : ℚ) / avg_line_length segments)).toNat

/-- `step = len(segments) / segments_to_include` (a float in the source;
division by a zero `segments_to_include` raises `ZeroDivisionError`, handled
by the caller `prepare_segments_for_gpt` below). -/
def sample_step (segments : List Seg) (max_chars : ℕ) : ℚ :=
  (segments.length : ℚ) / (segments_to_include segments max_chars : ℚ)

/-- `sampled_indices = [int(i * step) for i in range(segments_to_include)]`. -/
def sampled_indices (segments : List Seg) (max_chars : ℕ) : List ℕ :=
  (List.range (segments_to_include segments max_chars)).map fun (i : ℕ) =>
    (pyInt ((i : ℚ) * sample_step segments max_chars)).toNat

/-- The note prepended to a sampled rendering:
`f"[NOTE: Sampled {k} of {n} segments evenly across the podcast]\n\n"`. -/
def note_line (k n : ℕ) : String :=
  "[NOTE: Sampled " ++ toString k ++ " of " ++ toString n ++
    " segments evenly across the podcast]\n\n"

/-- The loop `for idx in sampled_indices: if idx < len(segments): ...` —
each in-range sampled index contributes its rendered line. -/
def sampled_lines (segments : List Seg) (max_chars : ℕ) : List String :=
  (sampled_indices segments max_chars).filterMap fun idx =>
    (segments.get? idx).map renderLine

/-- Python `lst[::step]` for a positive stride. -/
def take_every (step : ℕ) (l : List α) : List α :=
  l.enum.filterMap fun p => if p.1 % step = 0 then some p.2 else none

/-- `prepare_segments_for_gpt(segments, max_chars, sample_rate)` from
`src/scripts/generate_chapters.py` (the identical budget logic also appears
as `_prepare_segments_for_gpt` in `src/scripts/transcribe_podcast.py`, which
has no `sample_rate` parameter; its defaults are `max_chars = 50000`,
`sample_rate = 1.0`).  Returns `none` exactly when the source raises
`ZeroDivisionError` (`segments_to_include == 0` used as a divisor for
`step`).  A non-positive stride (`sample_rate ≤ 0`, an error in the source)
is likewise modelled as `none`; no claim exercises it. -/
def prepare_segments_for_gpt (segments₀ : List Seg) (max_chars : ℕ)
    (sample_rate : ℚ) : Option String :=
  let stride := pyInt (1 / sample_rate)
  if sample_rate < 1 ∧ stride ≤ 0 then none else
  let segments := if sample_rate < 1 then take_every stride.toNat segments₀
    else segments₀
  if total_length segments ≤ max_chars then
    some (String.join (segments.map renderLine))
  else
    if segments_to_include segments max_chars = 0 then none
    else some (String.join
      (note_line (segments_to_include segments max_chars) segments.length ::
        sampled_lines segments max_chars))

/-- `min_chapters = max(3, int(duration_minutes / (min_chapter_minutes * 3)))`
from `build_chapters_prompt` in `src/scripts/generate_chapters.py`. -/
def min_chapters (duration_minutes min_chapter_minutes : ℕ) : ℕ :=
  max 3 (duration_minutes / (min_chapter_minutes * 3))

/-- `ideal_chapters = min(max_chapters, max(min_chapters, int(duration_minutes / min_chapter_minutes)))`. -/
def ideal_chapters (duration_minutes min_chapter_minutes max_chapters : ℕ) : ℕ :=
  min max_chapters
    (max (min_chapters duration_minutes min_chapter_minutes)
      (duration_minutes / min_chapter_minutes))

/-- The numeric value of a digit run. -/
def digitsVal (ds : List Char) : ℕ :=
  ds.foldl (fun acc c => 10 * acc + (c.toNat - 48)) 0

/-- Parse the regex fragment `\d+\.\d+` at the head of the input (maximal
munch, which coincides with the regex semantics here), returning the parsed
value and the remaining input. -/
def parse_number (cs : List Char) : Option (ℚ × List Char) :=
  if (cs.takeWhile Char.isDigit) = [] then none
  else
    match cs.dropWhile Char.isDigit with
    | '.' :: r2 =>
      if (r2.takeWhile Char.isDigit) = [] then none
      else some
        ((digitsVal (cs.takeWhile Char.isDigit) : ℚ) +
          (digitsVal (r2.takeWhile Char.isDigit) : ℚ) /
            ((10 : ℚ) ^ (r2.takeWhile Char.isDigit).length),
          r2.dropWhile Char.isDigit)
    | _ => none

/-- Match the regex `\[\d+\.\d+-\d+\.\d+\]` at the head of the input,
returning both captured numbers (the first is the capture of
`r'\[(\d+\.\d+)-\d+\.\d+\]'`, the second that of
`r'\[\d+\.\d+-(\d+\.\d+)\]'`) and the remaining input. -/
def match_stamp (cs : List Char) : Option (ℚ × ℚ × List Char) :=
  match cs with
  | '[' :: r1 =>
    match parse_number r1 with
    | some (a, r2) =>
      match r2 with
      | '-' :: r3 =>
        match parse_number r3 with
        | some (b, r4) =>
          match r4 with
          | ']' :: r5 => some (a, b, r5)
          | _ => none
        | none => none
      | _ => none
    | none => none
  | _ => none

/-- Scan for all non-overlapping matches of `\[\d+\.\d+-\d+\.\d+\]`, left to
right, as `re.findall` does.  The fuel argument is the length of the input;
a successful match always consumes at least one character, so this fuel
never runs out. -/
def find_stamps_aux : ℕ → List Char → List (ℚ × ℚ)
  | 0, _ => []
  | _, [] => []
  | fuel + 1, c :: cs =>
    match match_stamp (c :: cs) with
    | some (a, b, rest) => (a, b) :: find_stamps_aux fuel rest
    | none => find_stamps_aux fuel cs

/-- `re.findall` of the timestamp pattern over a string: the two findall
calls of `build_chapters_prompt` are the first resp. second projections of
this list. -/
def find_stamps (s : String) : List (ℚ × ℚ) :=
  find_stamps_aux s.data.length s.data

/-- The duration extraction at the top of `build_chapters_prompt`
(`src/scripts/generate_chapters.py` lines 93–105): if no timestamp matches,
fall back to `duration_seconds = 3000`, `duration_minutes = 50`; otherwise
take the last matched end-timestamp and `duration_minutes =
int(duration_seconds / 60)`.  Note the supplied `actual_duration_seconds`
parameter plays no part. -/
def extracted_duration (segments_text : String) : ℚ × ℕ :=
  match (find_stamps segments_text).getLast? with
  | none => (3000, 50)
  | some p => (p.2, (pyInt (p.2 / 60)).toNat)

/-- `build_chapters_prompt(segments_text, actual_duration_seconds,
min_chapter_minutes, max_chapters)` from `src/scripts/generate_chapters.py`
(defaults: `min_chapter_minutes = 5`, `max_chapters = 15`).  The chapter
counts interpolated into the prompt are `ideal_chapters - 2` and
`ideal_chapters + 2` as Python integers, hence rendered through `ℤ`.
The `actual_duration_seconds` parameter is accepted but never used by the
source, which instead extracts the duration from `segments_text`. -/
def build_chapters_prompt (segments_text : String)
    (actual_duration_seconds : ℚ) (min_chapter_minutes max_chapters : ℕ) :
    String :=
  let duration_seconds := (extracted_duration segments_text).1
  let duration_minutes := (extracted_duration segments_text).2
  let ic := ideal_chapters duration_minutes min_chapter_minutes max_chapters
  "\nAnalyze this podcast transcript and create meaningful chapters that cover the ENTIRE "
    ++ toString duration_minutes ++ "-minute episode.\n\nReturn a JSON object with this exact structure:\n\x7b\n  \"chapters\": [\n    \x7b\n      \"title\": \"Introduction and Welcome\",\n      \"start_seconds\": 0,\n      \"end_seconds\": 300,\n      \"summary\": \"Brief introduction to the podcast and today\x27s topics\"\n    \x7d,\n    // more chapters...\n  ]\n\x7d\n\nCRITICAL REQUIREMENTS:\n- Create "
    ++ toString ((ic : ℤ) - 2) ++ " to " ++ toString ((ic : ℤ) + 2)
    ++ " chapters that span the FULL " ++ toString duration_minutes
    ++ " minutes\n- Each chapter MUST be AT LEAST " ++ toString min_chapter_minutes
    ++ " minutes (" ++ toString (min_chapter_minutes * 60)
    ++ " seconds) long\n- The first chapter MUST start at 0 seconds\n- The last chapter MUST extend to approximately "
    ++ toString (pyInt duration_seconds)
    ++ " seconds\n- Chapters must be continuous with no gaps (each chapter starts where the previous ends)\n- Chapter titles should be specific and descriptive (not generic like \"Part 1\")\n- Include a 1-2 sentence summary for each chapter\n- Base boundaries on natural topic transitions in the conversation\n\nIMPORTANT: Even if you only see samples from the transcript, you must still create chapters\nthat cover the ENTIRE "
    ++ toString duration_minutes
    ++ "-minute duration. Use context clues to infer reasonable\ntopic breaks for parts you haven\x27t seen.\n\nTranscript with timestamps (may be sampled if long):\n"
    ++ segments_text ++ "\n"

/-- A JSON value as `json.loads` can return it: exactly what the
chapter-planner's response handling needs to be modelled on. -/
inductive JVal where
  | obj (fields : List (String × JVal))
  | arr (elems : List JVal)
  | str (s : String)
  | num (q : ℚ)
  | bool (b : Bool)
  | null

/-- Python truthiness (`if chapters:`) of a decoded JSON value. -/
def jTruthy : JVal → Bool
  | .obj fields => !fields.isEmpty
  | .arr elems => !elems.isEmpty
  | .str s => !s.isEmpty
  | .num q => q ≠ 0
  | .bool b => b
  | .null => false

/-- Whether the coverage report
`first_start = chapters[0]['start_seconds']; last_end = chapters[-1]['end_seconds']; print(f"... {last_end/60:.1f} ...")`
executes without raising, for a truthy `chapters`: `chapters` must be a
(non-empty) array whose first element is an object with a
`start_seconds` key and whose last element is an object with a numeric (or
boolean, since Python booleans divide) `end_seconds` key.  Any other truthy
value makes one of the subscripts or the division raise. -/
def chapters_report_ok (chapters : JVal) : Bool :=
  match chapters with
  | .arr elems =>
    match elems.head?, elems.getLast? with
    | some (.obj f0), some (.obj f1) =>
      (f0.lookup "start_seconds").isSome &&
        (match f1.lookup "end_seconds" with
          | some (.num _) => true
          | some (.bool _) => true
          | _ => false)
    | _, _ => false
  | _ => false

/-- The response handling of `generate_chapters`
(`src/scripts/generate_chapters.py` lines 176–209).  The external chat call
and `json.loads` are modelled by the `parsed` argument: `.error` when the
call or the JSON decode raised, `.ok v` when it produced the value `v`.
The whole body sits in `try/except Exception`, so every raise — decode
failure, `.get` on a non-dict, a failing subscript in the coverage report —
lands in the handler, which reports the error and returns `[]`. -/
def generate_chapters_result (parsed : Except String JVal) : JVal :=
  match parsed with
  | .error _ => .arr []
  | .ok result =>
    match result with
    | .obj fields =>
      let chapters := (fields.lookup "chapters").getD (.arr [])
      if jTruthy chapters then
        if chapters_report_ok chapters then chapters else .arr []
      else chapters
    | _ => .arr []

/-! Concrete inputs used by the witnesses and counterexamples below. -/

/-- Two segments whose rendered lines are 12 characters each. -/
def sampler_ex2 : List Seg := [⟨0, 1, "x"⟩, ⟨1, 2, "x"⟩]

/-- Three segments whose rendered lines are 12 characters each. -/
def sampler_ex3 : List Seg := [⟨0, 1, "x"⟩, ⟨1, 2, "x"⟩, ⟨2, 3, "x"⟩]

/-- Two segments with very different line lengths (21 and 11 characters). -/
def sampler_ex_skew : List Seg := [⟨0, 1, "aaaaaaaaaa"⟩, ⟨1, 2, ""⟩]

/-- A single chunk carrying two segments that share the start time `0`. -/
def merge_ex_dup : List ChunkData := [⟨0, [⟨0, 1, "a"⟩, ⟨0, 2, "b"⟩]⟩]


/-! Evaluation helpers: `ℚ` arithmetic does not reduce in the kernel, so
concrete runs of the embedded functions are evaluated through the lemmas
below. -/

/-- Evaluate `pyInt` at a nonnegative rational from floor bounds. -/
theorem pyInt_eq_of (q : ℚ) (z : ℤ) (h0 : 0 ≤ q) (h1 : (z : ℚ) ≤ q)
    (h2 : q < z + 1) : pyInt q = z := by
  rw [pyInt, if_pos h0]
  exact Int.floor_eq_iff.mpr ⟨h1, h2⟩

/-- Evaluate `fmt1` at a nonnegative exact tenth. -/
theorem fmt1_eval (q : ℚ) (n : ℕ) (h0 : ¬ q < 0) (h : q * 10 = (n : ℚ)) :
    fmt1 q = toString (n / 10) ++ "." ++ toString (n % 10) := by
  have hr : roundHalfEven (q * 10) = (n : ℤ) := by
    rw [roundHalfEven, h]
    rw [Int.floor_natCast]
    norm_num
  rw [fmt1, if_neg h0, fmt1nn, hr]
  simp

theorem fmt1_zero : fmt1 0 = "0.0" := by
  rw [fmt1_eval 0 0 (by norm_num) (by norm_num)]; decide

theorem fmt1_one : fmt1 1 = "1.0" := by
  rw [fmt1_eval 1 10 (by norm_num) (by norm_num)]; decide

theorem fmt1_two : fmt1 2 = "2.0" := by
  rw [fmt1_eval 2 20 (by norm_num) (by norm_num)]; decide

theorem fmt1_three : fmt1 3 = "3.0" := by
  rw [fmt1_eval 3 30 (by norm_num) (by norm_num)]; decide

theorem renderLine_01x : renderLine ⟨0, 1, "x"⟩ = "[0.0-1.0] x\n" := by
  rw [renderLine, fmt1_zero, fmt1_one]; rfl

theorem renderLine_12x : renderLine ⟨1, 2, "x"⟩ = "[1.0-2.0] x\n" := by
  rw [renderLine, fmt1_one, fmt1_two]; rfl

theorem renderLine_23x : renderLine ⟨2, 3, "x"⟩ = "[2.0-3.0] x\n" := by
  rw [renderLine, fmt1_two, fmt1_three]; rfl

theorem renderLine_01a : renderLine ⟨0, 1, "aaaaaaaaaa"⟩ = "[0.0-1.0] aaaaaaaaaa\n" := by
  rw [renderLine, fmt1_zero, fmt1_one]; rfl

theorem renderLine_12e : renderLine ⟨1, 2, ""⟩ = "[1.0-2.0] \n" := by
  rw [renderLine, fmt1_one, fmt1_two]; rfl

theorem total_length_ex2 : total_length sampler_ex2 = 24 := by
  simp only [total_length, sampler_ex2, List.map_cons, List.map_nil,
    renderLine_01x, renderLine_12x]
  decide

theorem total_length_ex3 : total_length sampler_ex3 = 36 := by
  simp only [total_length, sampler_ex3, List.map_cons, List.map_nil,
    renderLine_01x, renderLine_12x, renderLine_23x]
  decide

theorem total_length_ex_skew : total_length sampler_ex_skew = 32 := by
  simp only [total_length, sampler_ex_skew, List.map_cons, List.map_nil,
    renderLine_01a, renderLine_12e]
  decide

theorem avg_ex2 : avg_line_length sampler_ex2 = 12 := by
  rw [avg_line_length, total_length_ex2]
  norm_num [sampler_ex2]

theorem stoi_ex2_11 : segments_to_include sampler_ex2 11 = 0 := by
  rw [segments_to_include, avg_ex2]
  rw [pyInt_eq_of _ 0 (by norm_num) (by norm_num) (by norm_num)]
  rfl

theorem prepare_ex2_11 : prepare_segments_for_gpt sampler_ex2 11 1 = none := by
  norm_num [prepare_segments_for_gpt, stoi_ex2_11, total_length_ex2]

/-- C10: at the Budget Sampler's public interface there is a non-empty
segment list (two segments, rendered lines of 12 characters each) whose
total rendered length 24 exceeds the budget `B = 11`, with `B` strictly
smaller than the average rendered line length 12; there
`segments_to_include = int(B / avg_line_length)` computes to `0`, and the
following `step = len(segments) / segments_to_include` raises
`ZeroDivisionError` (modelled as `none`), so no rendering is returned. -/
theorem sampler_zero_division_reachable :
    sampler_ex2 ≠ [] ∧
    11 < total_length sampler_ex2 ∧
    (11 : ℚ) < avg_line_length sampler_ex2 ∧
    segments_to_include sampler_ex2 11 = 0 ∧
    prepare_segments_for_gpt sampler_ex2 11 1 = none := by
  refine ⟨by rw [sampler_ex2]; simp, by rw [total_length_ex2]; omega,
    by rw [avg_ex2]; norm_num, stoi_ex2_11, prepare_ex2_11⟩

theorem avg_ex_skew : avg_line_length sampler_ex_skew = 16 := by
  rw [avg_line_length, total_length_ex_skew]
  norm_num [sampler_ex_skew]

theorem stoi_skew_30 : segments_to_include sampler_ex_skew 30 = 1 := by
  rw [segments_to_include, avg_ex_skew]
  rw [pyInt_eq_of _ 1 (by norm_num) (by norm_num) (by norm_num)]
  rfl

theorem step_skew_30 : sample_step sampler_ex_skew 30 = 2 := by
  rw [sample_step, stoi_skew_30]
  norm_num [sampler_ex_skew]

theorem sampled_indices_skew_30 : sampled_indices sampler_ex_skew 30 = [0] := by
  rw [sampled_indices, stoi_skew_30]
  rw [show List.range 1 = [0] from by decide]
  simp only [List.map_cons, List.map_nil]
  rw [step_skew_30]
  rw [pyInt_eq_of _ 0 (by norm_num) (by norm_num) (by norm_num)]
  rfl

theorem prepare_skew_30 :
    prepare_segments_for_gpt sampler_ex_skew 30 1 =
      some (String.join [note_line 1 2, "[0.0-1.0] aaaaaaaaaa\n"]) := by
  have hsl : sampled_lines sampler_ex_skew 30 = ["[0.0-1.0] aaaaaaaaaa\n"] := by
    rw [sampled_lines, sampled_indices_skew_30]
    simp [sampler_ex_skew, renderLine_01a]
  have hlen : sampler_ex_skew.length = 2 := by simp [sampler_ex_skew]
  norm_num [prepare_segments_for_gpt, stoi_skew_30, total_length_ex_skew, hsl, hlen]

/-- C4 counterexample: on the two-segment input `sampler_ex_skew` (rendered
lines of 21 and 11 characters, total 32) with budget `B = 30`, the Budget
Sampler enters its sampling branch, samples the single index `0`, and
returns the note line followed by the 21-character line `0` — a rendering of
80 characters, strictly more than the budget `B = 30`.  The returned
rendering is therefore not "at most `B` characters long". -/
theorem sampler_exceeds_budget_example :
    (prepare_segments_for_gpt sampler_ex_skew 30 1).map String.length = some 80 ∧
    30 < 80 := by
  constructor
  · rw [prepare_skew_30]
    decide
  · omega

theorem avg_ex3 : avg_line_length sampler_ex3 = 12 := by
  rw [avg_line_length, total_length_ex3]
  norm_num [sampler_ex3]

theorem stoi_ex3_24 : segments_to_include sampler_ex3 24 = 2 := by
  rw [segments_to_include, avg_ex3]
  rw [pyInt_eq_of _ 2 (by norm_num) (by norm_num) (by norm_num)]
  rfl

theorem step_ex3_24 : sample_step sampler_ex3 24 = 3 / 2 := by
  rw [sample_step, stoi_ex3_24]
  norm_num [sampler_ex3]

theorem sampled_indices_ex3_24 : sampled_indices sampler_ex3 24 = [0, 1] := by
  rw [sampled_indices, stoi_ex3_24]
  rw [show List.range 2 = [0, 1] from by decide]
  simp only [List.map_cons, List.map_nil]
  rw [step_ex3_24]
  rw [pyInt_eq_of ((0 : ℕ) * (3 / 2) : ℚ) 0 (by norm_num) (by norm_num) (by norm_num)]
  rw [pyInt_eq_of ((1 : ℕ) * (3 / 2) : ℚ) 1 (by norm_num) (by norm_num) (by norm_num)]
  rfl

/-- C6 counterexample: on the three-segment input `sampler_ex3` (each line
12 characters, total 36) with budget `B = 24`, the sampler is in its
over-budget branch and the sampled index set is `[0, 1]` — exactly the
two-element prefix `range 2` of the index range `[0, 3)`, never reaching the
final index `2`: the sample is a strict prefix, contradicting the claim
that it "spans the index range `[0, segment_count)` rather than being a
prefix". -/
theorem sampler_sample_is_prefix_example :
    24 < total_length sampler_ex3 ∧
    sampled_indices sampler_ex3 24 = List.range 2 ∧
    2 < sampler_ex3.length := by
  refine ⟨by rw [total_length_ex3]; omega, ?_, by simp [sampler_ex3]⟩
  rw [sampled_indices_ex3_24]
  decide

theorem kept_merge_ex_dup :
    kept_segments merge_ex_dup 3 = [⟨0, 1, "a"⟩, ⟨0, 2, "b"⟩] := by
  simp [kept_segments, merge_ex_dup]

/-- C8 counterexample: merging a single chunk (offset 0) whose transcript
holds two segments that both start at `0` keeps both of them, in arrival
order — the merged transcript contains two distinct segments with identical
`start_seconds`, so "no two segments share identical start_seconds" fails
(nothing in `merge_transcripts` de-duplicates equal start times). -/
theorem merge_duplicate_starts_example :
    (merge_transcripts merge_ex_dup 3).segments = [⟨0, 1, "a"⟩, ⟨0, 2, "b"⟩] ∧
    ¬ ((merge_transcripts merge_ex_dup 3).segments.map Seg.start).Nodup := by
  have hs : (merge_transcripts merge_ex_dup 3).segments =
      [⟨0, 1, "a"⟩, ⟨0, 2, "b"⟩] := by
    show (kept_segments merge_ex_dup 3).insertionSort seg_le = _
    rw [kept_merge_ex_dup]
    decide
  refine ⟨hs, ?_⟩
  rw [hs]
  decide

/-- Evaluate an integer ceiling from bounds. -/
theorem ceil_eq_of (q : ℚ) (z : ℤ) (h1 : (z : ℚ) - 1 < q) (h2 : q ≤ z) :
    (⌈q⌉ : ℤ) = z := by
  refine le_antisymm (Int.ceil_le.mpr h2) ?_
  have h3 : (z - 1 : ℤ) < ⌈q⌉ := Int.lt_ceil.mpr (by exact_mod_cast h1)
  omega

theorem num_chunks_1500 : num_chunks 1500 600 = 3 := by
  rw [num_chunks, ceil_eq_of _ 3 (by norm_num) (by norm_num)]
  rfl

theorem split_audio_1500 :
    split_audio 1500 600 3 =
      [⟨0, 0, 603, 0⟩, ⟨1, 600, 603, 597⟩, ⟨2, 1200, 303, 1197⟩] := by
  rw [split_audio, num_chunks_1500]
  rw [show List.range 3 = [0, 1, 2] from by decide]
  simp only [List.filterMap_cons, List.filterMap_nil]
  norm_num [chunk_start, ChunkInfo.mk.injEq]

/-- C2: with `D = 1500`, `L = 600`, `O = 3` the chunker produces exactly the
three chunks with `actual_start_time` `[0, 597, 1197]` and
`duration_seconds` `[603, 603, 303]`; and in general every produced chunk
obeys the window arithmetic: chunk `0` starts at `0`, chunk `i > 0` starts
at `i*L - O`, every chunk other than the last has duration `L + O`, and the
last chunk's duration is `D` minus its start. -/
theorem split_audio_window_arithmetic :
    split_audio 1500 600 3 =
      [⟨0, 0, 603, 0⟩, ⟨1, 600, 603, 597⟩, ⟨2, 1200, 303, 1197⟩] ∧
    ∀ (D L O : ℚ) (c : ChunkInfo), c ∈ split_audio D L O →
      (c.index = 0 → c.actual_start_time = 0) ∧
      (0 < c.index → c.actual_start_time = (c.index : ℚ) * L - O) ∧
      (c.index < num_chunks D L - 1 → c.duration_seconds = L + O) ∧
      (c.index = num_chunks D L - 1 → c.duration_seconds = D - c.actual_start_time) := by
  refine ⟨split_audio_1500, ?_⟩
  intro D L O c hc
  simp only [split_audio, List.mem_filterMap, List.mem_range] at hc
  obtain ⟨i, hi, hfi⟩ := hc
  rcases Nat.lt_or_ge i (num_chunks D L - 1) with hmid | hge
  · rw [if_pos hmid] at hfi
    by_cases hd : L + O < 1
    · rw [if_pos hd] at hfi
      exact absurd hfi (by simp)
    · rw [if_neg hd, Option.some.injEq] at hfi
      subst hfi
      refine ⟨?_, ?_, ?_, ?_⟩
      · intro h0
        dsimp only at h0 ⊢
        rw [chunk_start, if_pos h0]
      · intro h0
        dsimp only at h0 ⊢
        rw [chunk_start, if_neg (by omega)]
      · intro _
        rfl
      · intro hlast
        dsimp only at hlast
        omega
  · rw [if_neg (show ¬ i < num_chunks D L - 1 from by omega)] at hfi
    by_cases hd : D - chunk_start L O i < 1
    · rw [if_pos hd] at hfi
      exact absurd hfi (by simp)
    · rw [if_neg hd, Option.some.injEq] at hfi
      subst hfi
      refine ⟨?_, ?_, ?_, ?_⟩
      · intro h0
        dsimp only at h0 ⊢
        rw [chunk_start, if_pos h0]
      · intro h0
        dsimp only at h0 ⊢
        rw [chunk_start, if_neg (by omega)]
      · intro hmid2
        dsimp only at hmid2
        omega
      · intro _
        rfl

/-- Witness for `split_audio_window_arithmetic`: its second component applied
to the concrete middle chunk of the `D = 1500, L = 600, O = 3` run. -/
theorem split_audio_window_arithmetic_witness :
    (⟨1, 600, 603, 597⟩ : ChunkInfo).actual_start_time =
      ((⟨1, 600, 603, 597⟩ : ChunkInfo).index : ℚ) * 600 - 3 := by
  have hmem : (⟨1, 600, 603, 597⟩ : ChunkInfo) ∈ split_audio 1500 600 3 := by
    rw [split_audio_window_arithmetic.1]
    simp
  exact (split_audio_window_arithmetic.2 1500 600 3 _ hmem).2.1 (by norm_num)

/-- C5 counterexample: for `D = 1/2` (a positive duration), `L = 600`,
`O = 3`, the single computed chunk has duration `1/2 < 1` and is dropped, so
the chunker returns no chunks at all: the windows do not cover `[0, D]` and
there is no final chunk whose end equals `D`. -/
theorem split_audio_small_duration_example :
    (0 : ℚ) < 1 / 2 ∧ split_audio (1 / 2) 600 3 = [] := by
  refine ⟨by norm_num, ?_⟩
  have hn : num_chunks (1 / 2) 600 = 1 := by
    rw [num_chunks, ceil_eq_of _ 1 (by norm_num) (by norm_num)]
    rfl
  rw [split_audio, hn]
  rw [show List.range 1 = [0] from by decide]
  simp only [List.filterMap_cons, List.filterMap_nil]
  norm_num [chunk_start]

/-- `filterMap` collapses to `map` when the function never drops. -/
theorem filterMap_eq_map_of_forall {α β : Type} (f : α → Option β) (g : α → β)
    (l : List α) (h : ∀ a ∈ l, f a = some (g a)) : l.filterMap f = l.map g := by
  induction l with
  | nil => rfl
  | cons a l ih =>
    rw [List.filterMap_cons, List.map_cons, h a (List.mem_cons_self a l),
      ih fun b hb => h b (List.mem_cons_of_mem a hb)]

theorem num_chunks_pos (D L : ℚ) (hD : 1 ≤ D) (hL : 1 ≤ L) :
    1 ≤ num_chunks D L := by
  have hpos : 0 < ⌈D / L⌉ := Int.ceil_pos.mpr (div_pos (by linarith) (by linarith))
  rw [num_chunks]
  omega

theorem num_chunks_mul_lt (D L : ℚ) (hD : 1 ≤ D) (hL : 1 ≤ L) :
    ((num_chunks D L : ℚ) - 1) * L < D := by
  have hL0 : (0 : ℚ) < L := by linarith
  have hpos : 0 < ⌈D / L⌉ := Int.ceil_pos.mpr (div_pos (by linarith) hL0)
  have hcast : ((num_chunks D L : ℕ) : ℚ) = ((⌈D / L⌉ : ℤ) : ℚ) := by
    rw [num_chunks]
    exact_mod_cast congrArg (fun z : ℤ => (z : ℚ)) (Int.toNat_of_nonneg hpos.le)
  have hlt : ((⌈D / L⌉ : ℤ) : ℚ) < D / L + 1 := Int.ceil_lt_add_one (D / L)
  have h2 : (num_chunks D L : ℚ) - 1 < D / L := by
    rw [hcast]
    linarith
  calc ((num_chunks D L : ℚ) - 1) * L < D / L * L := by
        exact mul_lt_mul_of_pos_right h2 hL0
    _ = D := div_mul_cancel₀ D hL0.ne.symm

theorem split_audio_eq_map (D L O : ℚ) (hD : 1 ≤ D) (hL : 1 ≤ L) (hO : 1 ≤ O) :
    split_audio D L O =
      (List.range (num_chunks D L)).map (chunk_at D L O) := by
  rw [split_audio]
  apply filterMap_eq_map_of_forall
  intro i hi
  rw [List.mem_range] at hi
  have hnd : ¬ (if i < num_chunks D L - 1 then L + O
      else D - chunk_start L O i) < 1 := by
    rcases Nat.lt_or_ge i (num_chunks D L - 1) with hmid | hge
    · rw [if_pos hmid]
      linarith
    · rw [if_neg (by omega)]
      have hieq : i = num_chunks D L - 1 := by omega
      rcases Nat.eq_zero_or_pos i with h0 | h0
      · subst h0
        rw [chunk_start, if_pos rfl]
        linarith
      · rw [chunk_start, if_neg (by omega)]
        have hi1 : ((i : ℚ)) = (num_chunks D L : ℚ) - 1 := by
          have := num_chunks_pos D L hD hL
          subst hieq
          push_cast [Nat.cast_sub this]
          ring
        have := num_chunks_mul_lt D L hD hL
        rw [hi1]
        linarith [num_chunks_mul_lt D L hD hL]
  rw [if_neg hnd]
  rfl

theorem chunk_at_adjacent (D L O : ℚ) (hL : 1 ≤ L) (hO : 1 ≤ O) (j : ℕ)
    (hj : j + 1 < num_chunks D L) :
    (chunk_at D L O (j + 1)).actual_start_time ≤
      (chunk_at D L O j).actual_start_time +
        (chunk_at D L O j).duration_seconds := by
  have hmid : j < num_chunks D L - 1 := by omega
  rcases Nat.eq_zero_or_pos j with h0 | h0
  · subst h0
    simp only [chunk_at, chunk_start]
    rw [if_pos hmid]
    norm_num
    linarith
  · simp only [chunk_at, chunk_start]
    rw [if_pos hmid, if_neg (by omega : ¬ j = 0), if_neg (by omega : ¬ j + 1 = 0)]
    push_cast
    linarith

theorem chunk_at_last_end (D L O : ℚ) :
    (chunk_at D L O (num_chunks D L - 1)).actual_start_time +
      (chunk_at D L O (num_chunks D L - 1)).duration_seconds = D := by
  simp only [chunk_at]
  rw [if_neg (lt_irrefl _)]
  ring

/-- C5 (amended): for `D ≥ 1`, `L ≥ 1`, `O ≥ 1` no computed chunk has
duration below `1`, so none is dropped, and the produced chunk windows
cover `[0, D]` with no gap: the chunk list is non-empty, the first window
starts at `0`, every later window starts at or before the previous window's
end, and the final window's end (`actual_start_time + duration_seconds`)
equals `D` exactly.  (For `0 < D < 1` the single computed chunk is dropped
and the list is empty — see the counterexample.) -/
theorem split_audio_covers_duration (D L O : ℚ) (hD : 1 ≤ D) (hL : 1 ≤ L)
    (hO : 1 ≤ O) :
    split_audio D L O ≠ [] ∧
    (split_audio D L O).head?.map ChunkInfo.actual_start_time = some 0 ∧
    (∀ (j : ℕ) (h1 : j < (split_audio D L O).length)
        (h2 : j + 1 < (split_audio D L O).length),
      ((split_audio D L O).get ⟨j + 1, h2⟩).actual_start_time ≤
        ((split_audio D L O).get ⟨j, h1⟩).actual_start_time +
          ((split_audio D L O).get ⟨j, h1⟩).duration_seconds) ∧
    ∀ h : split_audio D L O ≠ [],
      ((split_audio D L O).getLast h).actual_start_time +
        ((split_audio D L O).getLast h).duration_seconds = D := by
  have hmap := split_audio_eq_map D L O hD hL hO
  have hN := num_chunks_pos D L hD hL
  have hlen : (split_audio D L O).length = num_chunks D L := by
    rw [hmap, List.length_map, List.length_range]
  have hne : split_audio D L O ≠ [] := by
    intro h
    rw [h] at hlen
    simp only [List.length_nil] at hlen
    omega
  have hget : ∀ (k : ℕ) (hk : k < (split_audio D L O).length),
      (split_audio D L O).get ⟨k, hk⟩ = chunk_at D L O k := by
    intro k hk
    simp only [List.get_eq_getElem, hmap, List.getElem_map, List.getElem_range]
  refine ⟨hne, ?_, ?_, ?_⟩
  · obtain ⟨m, hm⟩ : ∃ m, num_chunks D L = m + 1 :=
      ⟨num_chunks D L - 1, by omega⟩
    rw [hmap, hm, List.range_succ_eq_map, List.map_cons, List.head?_cons]
    simp [chunk_at, chunk_start]
  · intro j h1 h2
    rw [hget j h1, hget (j + 1) h2]
    exact chunk_at_adjacent D L O hL hO j (by omega)
  · intro h
    have h3 := hget ((split_audio D L O).length - 1) (by omega)
    simp only [List.get_eq_getElem] at h3
    rw [List.getLast_eq_getElem, h3, hlen]
    exact chunk_at_last_end D L O

/-- Witness for `split_audio_covers_duration` at `D = 1500`, `L = 600`,
`O = 3`. -/
theorem split_audio_covers_duration_witness :
    split_audio 1500 600 3 ≠ [] ∧
    (split_audio 1500 600 3).head?.map ChunkInfo.actual_start_time = some 0 := by
  have h := split_audio_covers_duration 1500 600 3 (by norm_num) (by norm_num)
    (by norm_num)
  exact ⟨h.1, h.2.1⟩

/-- C1: the merged segment list is a permutation of the per-chunk kept
stream (sorting only reorders), and a segment belongs to the merged output
precisely when some chunk `i` of the input contains a raw segment that
survives the overlap rule — it is kept exactly when `i = 0` or its
un-shifted start is not below `overlap_seconds` — and the output segment is
that raw segment with both timestamps shifted by the chunk's recorded
offset.  In particular an occurrence of a raw segment with chunk-local
start `< overlap_seconds` in a chunk with `i > 0` is discarded and never
contributes to the merged output. -/
theorem merge_transcripts_overlap_filter (chunks_data : List ChunkData)
    (overlap_seconds : ℚ) :
    ((merge_transcripts chunks_data overlap_seconds).segments).Perm
      (kept_segments chunks_data overlap_seconds) ∧
    ∀ t : Seg,
      t ∈ (merge_transcripts chunks_data overlap_seconds).segments ↔
        ∃ (i : ℕ) (cd : ChunkData) (seg : Seg),
          chunks_data[i]? = some cd ∧ seg ∈ cd.segments ∧
          (i = 0 ∨ ¬ seg.start < overlap_seconds) ∧
          t = ⟨seg.start + cd.start_offset_seconds,
               seg.«end» + cd.start_offset_seconds, seg.text⟩ := by
  refine ⟨List.perm_insertionSort seg_le _, ?_⟩
  intro t
  rw [show (merge_transcripts chunks_data overlap_seconds).segments =
      (kept_segments chunks_data overlap_seconds).insertionSort seg_le from rfl]
  rw [(List.perm_insertionSort seg_le _).mem_iff]
  rw [kept_segments]
  constructor
  · intro h
    obtain ⟨p, hp, ht⟩ := List.mem_flatMap.mp h
    obtain ⟨seg, hseg, hf⟩ := List.mem_filterMap.mp ht
    by_cases hc : 0 < p.1 ∧ seg.start < overlap_seconds
    · rw [if_pos hc] at hf
      exact absurd hf (by simp)
    · rw [if_neg hc] at hf
      rw [Option.some.injEq] at hf
      refine ⟨p.1, p.2, seg, ?_, hseg, ?_, hf.symm⟩
      · exact List.mk_mem_enum_iff_getElem?.mp (by simpa using hp)
      · rcases Nat.eq_zero_or_pos p.1 with h0 | h0
        · exact Or.inl h0
        · exact Or.inr fun hlt => hc ⟨h0, hlt⟩
  · rintro ⟨i, cd, seg, hget, hseg, hkeep, rfl⟩
    refine List.mem_flatMap.mpr ⟨(i, cd), ?_, ?_⟩
    · exact List.mk_mem_enum_iff_getElem?.mpr hget
    · refine List.mem_filterMap.mpr ⟨seg, hseg, ?_⟩
      rw [if_neg ?_]
      rintro ⟨hi, hlt⟩
      rcases hkeep with h0 | hnlt
      · omega
      · exact hnlt hlt

/-- Inserting `a` into `l` with `orderedInsert` places it before every
element of equal key, so the sub-sequence of elements with any fixed start
time gains `a` at its front when `a` has that start time and is otherwise
unchanged. -/
theorem filter_start_orderedInsert (c : ℚ) (a : Seg) (l : List Seg) :
    ((l.orderedInsert seg_le a).filter fun s => decide (s.start = c)) =
      if a.start = c then
        a :: l.filter fun s => decide (s.start = c)
      else l.filter fun s => decide (s.start = c) := by
  induction l with
  | nil =>
    rw [List.orderedInsert]
    by_cases hac : a.start = c
    · rw [if_pos hac, List.filter_cons, if_pos (by simp [hac])]
    · rw [if_neg hac, List.filter_cons, if_neg (by simp [hac])]
  | cons b l ih =>
    rw [List.orderedInsert]
    by_cases hab : seg_le a b
    · rw [if_pos hab]
      by_cases hac : a.start = c
      · rw [if_pos hac, List.filter_cons, if_pos (by simp [hac])]
      · rw [if_neg hac, List.filter_cons, if_neg (by simp [hac])]
    · rw [if_neg hab]
      have hba : b.start < a.start := lt_of_not_le hab
      by_cases hac : a.start = c
      · have hbc : ¬ b.start = c := by
          intro hbc
          rw [hac] at hba
          rw [hbc] at hba
          exact lt_irrefl c hba
        rw [if_pos hac, List.filter_cons, if_neg (by simp [hbc]),
          List.filter_cons, if_neg (by simp [hbc]), ih, if_pos hac]
      · rw [if_neg hac, List.filter_cons, List.filter_cons, ih, if_neg hac]

/-- Insertion sort on the start-time key is stable: the sub-sequence of
elements carrying any fixed start time is exactly the one of the input, in
input order. -/
theorem filter_start_insertionSort (c : ℚ) (l : List Seg) :
    ((l.insertionSort seg_le).filter fun s => decide (s.start = c)) =
      l.filter fun s => decide (s.start = c) := by
  induction l with
  | nil => rfl
  | cons a l ih =>
    rw [List.insertionSort, filter_start_orderedInsert]
    by_cases hac : a.start = c
    · rw [if_pos hac, ih, List.filter_cons, if_pos (by simp [hac])]
    · rw [if_neg hac, ih, List.filter_cons, if_neg (by simp [hac])]

/-- C8 (amended): after merging, the segments are sorted by `start_seconds`
in non-decreasing order; the sort is stable — for every start time `c`, the
merged sub-sequence of segments starting at `c` equals, element for element
and in the same order, the corresponding sub-sequence of the pre-sort
(arrival-ordered) kept stream; and `full_text` is the space-join of the
`text` fields in the final order.  (Distinct merged segments may share
identical `start_seconds` — see the counterexample.) -/
theorem merge_transcripts_sorted_stable (chunks_data : List ChunkData)
    (overlap_seconds : ℚ) :
    List.Sorted seg_le (merge_transcripts chunks_data overlap_seconds).segments ∧
    (∀ c : ℚ,
      ((merge_transcripts chunks_data overlap_seconds).segments.filter
          fun s => decide (s.start = c)) =
        (kept_segments chunks_data overlap_seconds).filter
          fun s => decide (s.start = c)) ∧
    (merge_transcripts chunks_data overlap_seconds).text =
      String.intercalate " "
        ((merge_transcripts chunks_data overlap_seconds).segments.map Seg.text) := by
  refine ⟨List.sorted_insertionSort seg_le _, ?_, rfl⟩
  intro c
  exact filter_start_insertionSort c _

theorem length_foldl_append (l : List String) :
    ∀ init : String,
      (l.foldl (fun r s => r ++ s) init).length =
        init.length + (l.map String.length).sum := by
  induction l with
  | nil => intro init; simp
  | cons a l ih =>
    intro init
    rw [List.foldl_cons, ih (init ++ a), String.length_append, List.map_cons,
      List.sum_cons]
    omega

theorem string_join_length (l : List String) :
    (String.join l).length = (l.map String.length).sum := by
  rw [String.join, length_foldl_append]
  simp

/-- C4 (amended): whenever the full rendering of the segment sequence fits
within the budget (`total_length segments ≤ B`), the Budget Sampler returns
exactly that full rendering, whose length is at most `B`.  In the
over-budget branch the returned rendering is not bounded by `B` — see the
counterexample. -/
theorem sampler_within_budget_when_fits (segments : List Seg) (B : ℕ)
    (h : total_length segments ≤ B) :
    prepare_segments_for_gpt segments B 1 =
      some (String.join (segments.map renderLine)) ∧
    (String.join (segments.map renderLine)).length ≤ B := by
  constructor
  · simp only [prepare_segments_for_gpt]
    rw [if_neg (by norm_num), if_neg (by norm_num : ¬ (1 : ℚ) < 1), if_pos h]
  · rw [string_join_length]
    exact h

/-- Witness for `sampler_within_budget_when_fits` on a concrete two-segment
input whose rendering (24 characters) fits the default 50000 budget. -/
theorem sampler_within_budget_when_fits_witness :
    prepare_segments_for_gpt sampler_ex2 50000 1 =
      some (String.join (sampler_ex2.map renderLine)) ∧
    (String.join (sampler_ex2.map renderLine)).length ≤ 50000 :=
  sampler_within_budget_when_fits sampler_ex2 50000
    (by rw [total_length_ex2]; omega)

theorem pyInt_nonneg_eq_floor (x : ℚ) (hx : 0 ≤ x) : pyInt x = ⌊x⌋ := by
  rw [pyInt, if_pos hx]

theorem pyInt_toNat_cast (x : ℚ) (hx : 0 ≤ x) :
    (((pyInt x).toNat : ℤ)) = pyInt x := by
  rw [pyInt_nonneg_eq_floor x hx]
  exact Int.toNat_of_nonneg (Int.floor_nonneg.mpr hx)

theorem pyInt_toNat_le (x : ℚ) (hx : 0 ≤ x) : (((pyInt x).toNat : ℚ)) ≤ x := by
  have h := pyInt_toNat_cast x hx
  have h2 : ((pyInt x : ℤ) : ℚ) ≤ x := by
    rw [pyInt_nonneg_eq_floor x hx]
    exact Int.floor_le x
  calc (((pyInt x).toNat : ℚ)) = ((pyInt x : ℤ) : ℚ) := by exact_mod_cast h
    _ ≤ x := h2

theorem avg_line_length_nonneg (segments : List Seg) :
    0 ≤ avg_line_length segments := by
  rw [avg_line_length]
  positivity

theorem segments_to_include_cast_le (segments : List Seg) (B : ℕ) :
    ((segments_to_include segments B : ℕ) : ℚ) ≤
      (B : ℚ) / avg_line_length segments := by
  rw [segments_to_include]
  exact pyInt_toNat_le _ (div_nonneg (by positivity) (avg_line_length_nonneg segments))

theorem segments_length_pos_of_over (segments : List Seg) (B : ℕ)
    (hover : B < total_length segments) : 0 < segments.length := by
  rcases List.eq_nil_or_concat segments with h | _
  · subst h
    simp [total_length] at hover
  · cases segments with
    | nil => simp [total_length] at hover
    | cons a l => simp

theorem segments_to_include_lt_length (segments : List Seg) (B : ℕ)
    (hover : B < total_length segments) :
    segments_to_include segments B < segments.length := by
  have hn := segments_length_pos_of_over segments B hover
  have htot : 0 < total_length segments := by omega
  have hnq : (0 : ℚ) < (segments.length : ℚ) := by exact_mod_cast hn
  have htotq : (0 : ℚ) < (total_length segments : ℚ) := by exact_mod_cast htot
  have havg : 0 < avg_line_length segments := by
    rw [avg_line_length]
    positivity
  have h1 := segments_to_include_cast_le segments B
  have h2 : (B : ℚ) / avg_line_length segments <
      (total_length segments : ℚ) / avg_line_length segments :=
    (div_lt_div_right havg).mpr (by exact_mod_cast hover)
  have h3 : (total_length segments : ℚ) / avg_line_length segments =
      (segments.length : ℚ) := by
    rw [avg_line_length]
    field_simp
  have h4 : ((segments_to_include segments B : ℕ) : ℚ) <
      (segments.length : ℚ) := by
    calc ((segments_to_include segments B : ℕ) : ℚ)
        ≤ (B : ℚ) / avg_line_length segments := h1
      _ < (total_length segments : ℚ) / avg_line_length segments := h2
      _ = (segments.length : ℚ) := h3
  exact_mod_cast h4

theorem sample_step_mul (segments : List Seg) (B : ℕ)
    (hinc : 1 ≤ segments_to_include segments B) :
    (segments_to_include segments B : ℚ) * sample_step segments B =
      (segments.length : ℚ) := by
  have h0 : ((segments_to_include segments B : ℕ) : ℚ) ≠ 0 := by
    have : (0 : ℚ) < ((segments_to_include segments B : ℕ) : ℚ) := by
      exact_mod_cast hinc
    linarith
  rw [sample_step]
  field_simp

theorem one_lt_sample_step (segments : List Seg) (B : ℕ)
    (hover : B < total_length segments)
    (hinc : 1 ≤ segments_to_include segments B) :
    1 < sample_step segments B := by
  have hlt := segments_to_include_lt_length segments B hover
  have h0 : (0 : ℚ) < ((segments_to_include segments B : ℕ) : ℚ) := by
    exact_mod_cast hinc
  rw [sample_step]
  rw [one_lt_div h0]
  exact_mod_cast hlt

theorem sampled_index_strict_mono (segments : List Seg) (B : ℕ)
    (hs1 : 1 < sample_step segments B) (a b : ℕ) (hab : a < b) :
    (pyInt ((a : ℚ) * sample_step segments B)).toNat <
      (pyInt ((b : ℚ) * sample_step segments B)).toNat := by
  have hs0 : (0 : ℚ) < sample_step segments B := lt_trans one_pos hs1
  have ha0 : (0 : ℚ) ≤ (a : ℚ) * sample_step segments B := by positivity
  have hb0 : (0 : ℚ) ≤ (b : ℚ) * sample_step segments B := by positivity
  have hle : (a : ℚ) * sample_step segments B + 1 ≤
      (b : ℚ) * sample_step segments B := by
    have hb1 : (a : ℚ) + 1 ≤ (b : ℚ) := by exact_mod_cast hab
    have : ((a : ℚ) + 1) * sample_step segments B ≤
        (b : ℚ) * sample_step segments B :=
      mul_le_mul_of_nonneg_right hb1 hs0.le
    nlinarith
  have hfl : ⌊(a : ℚ) * sample_step segments B⌋ <
      ⌊(b : ℚ) * sample_step segments B⌋ := by
    have h1 : ⌊(a : ℚ) * sample_step segments B + 1⌋ ≤
        ⌊(b : ℚ) * sample_step segments B⌋ := Int.floor_le_floor hle
    rw [Int.floor_add_one] at h1
    omega
  rw [pyInt_nonneg_eq_floor _ ha0, pyInt_nonneg_eq_floor _ hb0]
  have ha' : 0 ≤ ⌊(a : ℚ) * sample_step segments B⌋ := Int.floor_nonneg.mpr ha0
  omega

theorem sampled_index_lt_length (segments : List Seg) (B : ℕ)
    (hover : B < total_length segments)
    (hinc : 1 ≤ segments_to_include segments B) (i : ℕ)
    (hi : i < segments_to_include segments B) :
    (pyInt ((i : ℚ) * sample_step segments B)).toNat < segments.length := by
  have hs1 := one_lt_sample_step segments B hover hinc
  have hs0 : (0 : ℚ) < sample_step segments B := lt_trans one_pos hs1
  have hi0 : (0 : ℚ) ≤ (i : ℚ) * sample_step segments B := by positivity
  have hiq : (i : ℚ) ≤ (segments_to_include segments B : ℚ) - 1 := by
    have : (i : ℚ) + 1 ≤ (segments_to_include segments B : ℚ) := by
      exact_mod_cast hi
    linarith
  have hmul := sample_step_mul segments B hinc
  have hval : (i : ℚ) * sample_step segments B < (segments.length : ℚ) := by
    have h1 : (i : ℚ) * sample_step segments B ≤
        ((segments_to_include segments B : ℚ) - 1) * sample_step segments B :=
      mul_le_mul_of_nonneg_right hiq hs0.le
    have h2 : ((segments_to_include segments B : ℚ) - 1) * sample_step segments B =
        (segments.length : ℚ) - sample_step segments B := by
      rw [sub_mul, hmul]
      ring
    linarith
  have hfl : ⌊(i : ℚ) * sample_step segments B⌋ < (segments.length : ℤ) :=
    Int.floor_lt.mpr (by exact_mod_cast hval)
  rw [pyInt_nonneg_eq_floor _ hi0]
  have h0 : 0 ≤ ⌊(i : ℚ) * sample_step segments B⌋ := Int.floor_nonneg.mpr hi0
  omega

/-- C6 (amended): when the full rendering fits the budget the sampler
returns it unchanged.  When the total exceeds `B` — provided
`segments_to_include ≥ 1`, i.e. `B` is at least the average line length, so
the sampler does not raise `ZeroDivisionError` — the sampled index list has
exactly `segments_to_include = ⌊B / avg_line_length⌋ ≤ B / avg_line_length`
entries, starts at index `0`, is strictly increasing (hence a set of that
size), stays below `segment_count`, and its largest element is
`int((segments_to_include - 1) · step)`; the sample need not reach
`segment_count - 1` and can be a strict prefix of the index range — see the
counterexample. -/
theorem budget_sampler_full_or_even_sample (segments : List Seg) (B : ℕ) :
    (total_length segments ≤ B →
      prepare_segments_for_gpt segments B 1 =
        some (String.join (segments.map renderLine))) ∧
    (B < total_length segments → 1 ≤ segments_to_include segments B →
      (sampled_indices segments B).length = segments_to_include segments B ∧
      ((segments_to_include segments B : ℚ) ≤
        (B : ℚ) / avg_line_length segments) ∧
      (sampled_indices segments B).head? = some 0 ∧
      List.Pairwise (fun a b => a < b) (sampled_indices segments B) ∧
      (∀ idx ∈ sampled_indices segments B, idx < segments.length) ∧
      (sampled_indices segments B).getLast? =
        some ((pyInt (((segments_to_include segments B : ℚ) - 1) *
          sample_step segments B)).toNat)) := by
  constructor
  · intro h
    simp only [prepare_segments_for_gpt]
    rw [if_neg (by norm_num), if_neg (by norm_num : ¬ (1 : ℚ) < 1), if_pos h]
  · intro hover hinc
    have hs1 := one_lt_sample_step segments B hover hinc
    refine ⟨by simp [sampled_indices], segments_to_include_cast_le segments B,
      ?_, ?_, ?_, ?_⟩
    · obtain ⟨m, hm⟩ : ∃ m, segments_to_include segments B = m + 1 :=
        ⟨segments_to_include segments B - 1, by omega⟩
      rw [sampled_indices, hm, List.range_succ_eq_map, List.map_cons,
        List.head?_cons, Option.some.injEq, Nat.cast_zero, zero_mul,
        pyInt_nonneg_eq_floor 0 le_rfl, Int.floor_zero]
      rfl
    · rw [sampled_indices]
      rw [List.pairwise_map]
      exact (List.pairwise_lt_range _).imp
        fun hab => sampled_index_strict_mono segments B hs1 _ _ hab
    · intro idx hidx
      rw [sampled_indices] at hidx
      obtain ⟨i, hi, rfl⟩ := List.mem_map.mp hidx
      rw [List.mem_range] at hi
      exact sampled_index_lt_length segments B hover hinc i hi
    · obtain ⟨m, hm⟩ : ∃ m, segments_to_include segments B = m + 1 :=
        ⟨segments_to_include segments B - 1, by omega⟩
      rw [sampled_indices, hm, List.range_succ, List.map_append, List.map_cons,
        List.map_nil, List.getLast?_concat, Option.some.injEq]
      have hcast : ((m : ℕ) : ℚ) = ((m + 1 : ℕ) : ℚ) - 1 := by
        push_cast
        ring
      rw [hcast]

/-- Witness for `budget_sampler_full_or_even_sample`: its over-budget part
applied to the concrete three-segment input with budget 24. -/
theorem budget_sampler_full_or_even_sample_witness :
    (sampled_indices sampler_ex3 24).head? = some 0 := by
  have h := (budget_sampler_full_or_even_sample sampler_ex3 24).2
    (by rw [total_length_ex3]; omega) (by rw [stoi_ex3_24]; omega)
  exact h.2.2.1

/-- C7: the chapter planner's response handling is total — the entire body
of `generate_chapters` sits in `try/except Exception` — and on a decode
failure (`json.loads` raised) as well as on a decoded object without a
`chapters` key it returns the empty chapter list; no parse exception ever
reaches the caller (the reported error message is console plumbing and is
not modelled). -/
theorem chapter_planner_malformed_response (parsed : Except String JVal) :
    (∀ e : String, parsed = .error e →
      generate_chapters_result parsed = .arr []) ∧
    (∀ fields : List (String × JVal), parsed = .ok (.obj fields) →
      fields.lookup "chapters" = none →
      generate_chapters_result parsed = .arr []) := by
  constructor
  · rintro e rfl
    rfl
  · rintro fields rfl hnone
    show generate_chapters_result (.ok (.obj fields)) = .arr []
    simp only [generate_chapters_result, hnone, Option.getD_none]
    rfl

/-- Witness for `chapter_planner_malformed_response`: a raised decode error
and an object without a `chapters` key both yield the empty list. -/
theorem chapter_planner_malformed_response_witness :
    generate_chapters_result (.error "Expecting value: line 1 column 1") =
      .arr [] ∧
    generate_chapters_result (.ok (.obj [("summary", .str "x")])) = .arr [] :=
  ⟨(chapter_planner_malformed_response _).1 _ rfl,
    (chapter_planner_malformed_response _).2 [("summary", .str "x")] rfl rfl⟩

theorem find_stamps_3600 : find_stamps "[0.0-3600.0] hi\n" =
    [(((0 : ℕ) : ℚ) + ((0 : ℕ) : ℚ) / (10 : ℚ) ^ (1 : ℕ),
      ((3600 : ℕ) : ℚ) + ((0 : ℕ) : ℚ) / (10 : ℚ) ^ (1 : ℕ))] := rfl

theorem extracted_minutes_3600 :
    (extracted_duration "[0.0-3600.0] hi\n").2 = 60 := by
  have h : (extracted_duration "[0.0-3600.0] hi\n").2 =
      (pyInt ((((3600 : ℕ) : ℚ) + ((0 : ℕ) : ℚ) / (10 : ℚ) ^ (1 : ℕ)) / 60)).toNat :=
    rfl
  rw [h, pyInt_eq_of _ 60 (by norm_num) (by norm_num) (by norm_num)]
  rfl

theorem extracted_seconds_3600 :
    pyInt (extracted_duration "[0.0-3600.0] hi\n").1 = 3600 := by
  have h : (extracted_duration "[0.0-3600.0] hi\n").1 =
      ((3600 : ℕ) : ℚ) + ((0 : ℕ) : ℚ) / (10 : ℚ) ^ (1 : ℕ) := rfl
  rw [h, pyInt_eq_of _ 3600 (by norm_num) (by norm_num) (by norm_num)]

set_option maxRecDepth 100000 in
/-- C3: the chapter-count heuristic is the stated pure function of
`(duration_minutes, m, X)` — `min_chapters = max(3, ⌊dm / (3m)⌋)` and
`ideal_chapters = min(X, max(min_chapters, ⌊dm / m⌋))`; on a 60-minute
duration with `m = 5`, `X = 15` it yields `min_chapters = 4` and
`ideal_chapters = 12`, and the generated prompt asks for
`ideal_chapters - 2 = 10` to `ideal_chapters + 2 = 14` chapters. -/
theorem chapter_count_heuristic :
    (∀ dm m X : ℕ,
      min_chapters dm m = max 3 (dm / (3 * m)) ∧
      ideal_chapters dm m X = min X (max (min_chapters dm m) (dm / m))) ∧
    min_chapters 60 5 = 4 ∧
    ideal_chapters 60 5 15 = 12 ∧
    ("Create 10 to 14 chapters").data <:+:
      (build_chapters_prompt "[0.0-3600.0] hi\n" 3600 5 15).data := by
  refine ⟨?_, by decide, by decide, ?_⟩
  · intro dm m X
    constructor
    · rw [min_chapters, Nat.mul_comm]
    · rfl
  · simp only [build_chapters_prompt]
    rw [extracted_minutes_3600, extracted_seconds_3600]
    rw [show ideal_chapters 60 5 15 = 12 from by decide]
    decide

theorem data_sub_left (s t : String) {l : List Char} (h : l <:+: s.data) :
    l <:+: (s ++ t).data := by
  rw [String.data_append]
  exact h.trans ⟨[], t.data, by simp⟩

theorem data_sub_right (s t : String) {l : List Char} (h : l <:+: t.data) :
    l <:+: (s ++ t).data := by
  rw [String.data_append]
  exact h.trans ⟨s.data, [], by simp⟩

set_option maxRecDepth 100000 in
/-- C9 (amended): the chapter-generation prompt is entirely independent of
the `actual_duration_seconds` argument supplied to `build_chapters_prompt`
— the embedded duration is instead extracted from the last end-timestamp of
the transcript rendering (falling back to 3000 s / 50 min when the
rendering holds no timestamps).  The prompt does embed the transcript
rendering itself and the instruction to cover the full (extracted) duration
even when only a sample was shown. -/
theorem prompt_embeds_extracted_duration (segments_text : String)
    (d d' : ℚ) (m X : ℕ) :
    build_chapters_prompt segments_text d m X =
      build_chapters_prompt segments_text d' m X ∧
    ("Even if you only see samples from the transcript").data <:+:
      (build_chapters_prompt segments_text d m X).data ∧
    segments_text.data <:+: (build_chapters_prompt segments_text d m X).data := by
  refine ⟨rfl, ?_, ?_⟩
  · simp only [build_chapters_prompt]
    exact data_sub_left _ _ (data_sub_left _ _ (data_sub_left _ _
      (data_sub_left _ _ (data_sub_right _ _ (by decide)))))
  · simp only [build_chapters_prompt]
    exact data_sub_left _ _ (data_sub_right _ _ (List.infix_refl _))

theorem find_stamps_600 : find_stamps "[0.0-600.0] hello\n" =
    [(((0 : ℕ) : ℚ) + ((0 : ℕ) : ℚ) / (10 : ℚ) ^ (1 : ℕ),
      ((600 : ℕ) : ℚ) + ((0 : ℕ) : ℚ) / (10 : ℚ) ^ (1 : ℕ))] := rfl

theorem extracted_minutes_600 :
    (extracted_duration "[0.0-600.0] hello\n").2 = 10 := by
  have h : (extracted_duration "[0.0-600.0] hello\n").2 =
      (pyInt ((((600 : ℕ) : ℚ) + ((0 : ℕ) : ℚ) / (10 : ℚ) ^ (1 : ℕ)) / 60)).toNat :=
    rfl
  rw [h, pyInt_eq_of _ 10 (by norm_num) (by norm_num) (by norm_num)]
  rfl

theorem extracted_seconds_600 :
    pyInt (extracted_duration "[0.0-600.0] hello\n").1 = 600 := by
  have h : (extracted_duration "[0.0-600.0] hello\n").1 =
      ((600 : ℕ) : ℚ) + ((0 : ℕ) : ℚ) / (10 : ℚ) ^ (1 : ℕ) := rfl
  rw [h, pyInt_eq_of _ 600 (by norm_num) (by norm_num) (by norm_num)]

set_option maxRecDepth 100000 in
/-- C9 counterexample: for the rendering `"[0.0-600.0] hello\n"` (whose
last end-timestamp is 600 s, i.e. 10 minutes) and a supplied true duration
of 3600 s (60 minutes), the prompt is byte-for-byte the one produced for a
supplied duration of 77 s — the supplied duration is ignored — and it
announces a 10-minute episode, the value inferred from the transcript
rendering.  So the prompt does not embed the true total episode duration
supplied to the planner; it embeds the inferred one. -/
theorem prompt_ignores_supplied_duration_example :
    build_chapters_prompt "[0.0-600.0] hello\n" 3600 5 15 =
      build_chapters_prompt "[0.0-600.0] hello\n" 77 5 15 ∧
    ("ENTIRE 10-minute").data <:+:
      (build_chapters_prompt "[0.0-600.0] hello\n" 3600 5 15).data := by
  refine ⟨rfl, ?_⟩
  simp only [build_chapters_prompt]
  rw [extracted_minutes_600, extracted_seconds_600]
  rw [show ideal_chapters 10 5 15 = 3 from by decide]
  decide
